import Mathlib

/-!
Verification of the 3d-tiles-tools binary data engine:
the implicit bounding volume deriver (`BoundingVolumeDerivation`) and the
binary property table codec (`BinaryPropertyTables`,
`BinaryMetadataEntityModel`).

Real-valued (`Float64`) arithmetic of the source is modelled exactly over
`ℝ` (geometry) and `ℚ` (metadata values); floating-point rounding is not
modelled.
-/

namespace ThreeDTilesTools

/-! ## Modelled CesiumJS math helpers

`BoundingVolumeDerivation.ts` calls `Math.negativePiToPi` from the external
CesiumJS library. Modelled from the spec: "each longitude/latitude result
renormalized into `[-π, π]`", realized by the CesiumJS formula
`zeroToTwoPi(angle + π) - π` over exact reals (the library's
floating-point epsilon snapping near `0`/`2π` is not modelled, it only
moves results between the endpoints `0` and `2π` of the same interval). -/

/-- Truncation toward zero, the rounding used by the JavaScript `%`
operator. -/
noncomputable def realTrunc (x : ℝ) : ℤ :=
  if 0 ≤ x then ⌊x⌋ else ⌈x⌉

/-- The JavaScript remainder operator `m % n` over exact reals:
`m - n * trunc(m / n)`. -/
noncomputable def jsRem (m n : ℝ) : ℝ :=
  m - n * (realTrunc (m / n) : ℝ)

/-- CesiumJS `Math.mod`: `((m % n) + n) % n`. -/
noncomputable def cesiumMod (m n : ℝ) : ℝ :=
  jsRem (jsRem m n + n) n

/-- CesiumJS `Math.zeroToTwoPi`. -/
noncomputable def zeroToTwoPi (angle : ℝ) : ℝ :=
  if 0 ≤ angle ∧ angle ≤ 2 * Real.pi then angle
  else cesiumMod angle (2 * Real.pi)

/-- CesiumJS `Math.negativePiToPi`. -/
noncomputable def negativePiToPi (angle : ℝ) : ℝ :=
  if -Real.pi ≤ angle ∧ angle ≤ Real.pi then angle
  else zeroToTwoPi (angle + Real.pi) - Real.pi

/-! ## Data model of bounding volumes

`BoundingVolume` (structure/BoundingVolume.ts) carries optional `box`,
`region`, `sphere` arrays and an optional `extensions` dictionary; the
deriver only ever reads the `"3DTILES_bounding_volume_S2"` extension, so
the dictionary is modelled by that single optional entry. -/

/-- The `3DTILES_bounding_volume_S2` extension object.  The S2 cell
`token` is modelled by the 64-bit cell identifier it denotes: the
hexadecimal token encoding (`S2Cell.getIdFromToken` /
`S2Cell.getTokenFromId`, not under src/) is a bijection between tokens
and identifiers and is modelled from the spec as the identity on
identifiers. -/
structure BoundingVolumeS2 where
  token : ℕ
  minimumHeight : ℝ
  maximumHeight : ℝ

/-- A 3D Tiles bounding volume. -/
structure BoundingVolume where
  box : Option (List ℝ)
  region : Option (List ℝ)
  sphere : Option (List ℝ)
  s2 : Option BoundingVolumeS2

namespace HilbertOrder

/-- Modelled from the spec: `HilbertOrder.rotate` (traversal/cesium/
HilbertOrder.ts is not under src/) — the quadrant rotation step of the
standard 2D Hilbert curve index computation. -/
def rotate (n x y rx ry : ℕ) : ℕ × ℕ :=
  if ry ≠ 0 then (x, y)
  else if rx = 1 then (n - 1 - y, n - 1 - x)
  else (y, x)

/-- One loop of the Hilbert index accumulation, over bit positions
`i-1, i-2, ..., 0` (the source iterates `s = n/2, n/4, ..., 1`). -/
def encode2DAux (n : ℕ) : ℕ → ℕ → ℕ → ℕ
  | 0, _, _ => 0
  | i + 1, x, y =>
    let s := 2 ^ i
    let rx := if 0 < x &&& s then 1 else 0
    let ry := if 0 < y &&& s then 1 else 0
    let d := ((3 * rx) ^^^ ry) * s * s
    let p := rotate n x y rx ry
    d + encode2DAux n i p.1 p.2

/-- Modelled from the spec: `HilbertOrder.encode2D` is not under src/.
"Hilbert curve position: a locality-preserving linearization of 2D
quadtree coordinates into a single integer index", computed at the given
`level` from `(x, y)` by the standard Hilbert curve algorithm. -/
def encode2D (level x y : ℕ) : ℕ :=
  encode2DAux (2 ^ level) level x y

end HilbertOrder

namespace S2Cell

/-- Modelled from the spec: `S2Cell.getIdFromToken` is not under src/;
tokens are modelled by the 64-bit cell identifier they denote. -/
def getIdFromToken (token : ℕ) : ℕ :=
  token % 2 ^ 64

/-- Modelled from the spec: `S2Cell.getTokenFromId` is not under src/;
tokens are modelled by the 64-bit cell identifier they denote. -/
def getTokenFromId (cellId : ℕ) : ℕ :=
  cellId

/-- Modelled from the spec: `S2Cell.fromFacePositionLevel` is not under
src/ — "build the new cell identifier from `(face, position, level)`":
3 face bits, `2*level` Hilbert position bits, then a single set sentinel
bit (the standard S2 cell identifier layout, for `level ≤ 30`). -/
def fromFacePositionLevel (face position level : ℕ) : ℕ :=
  (face <<< 61) + (position <<< (61 - 2 * level)) + (1 <<< (60 - 2 * level))

end S2Cell

namespace BoundingVolumeDerivation

/-- `BoundingVolumeDerivation.deriveBoundingBox`.  The root box is
12 numbers: center at indices 0–2 (`Cartesian3.unpack(rootBox, 0)`) and
the half-axis matrix in column-major order at indices 3–11
(`Matrix3.unpack(rootBox, 3)`).  A list that is not 12 numbers long is
returned unchanged (the source would produce undefined/NaN entries; the
claims only concern 12-number boxes). -/
noncomputable def deriveBoundingBox (rootBox : List ℝ) (level x y : ℕ)
    (z : Option ℕ) : List ℝ :=
  if level = 0 then rootBox
  else
    match rootBox with
    | [c0, c1, c2, m0, m1, m2, m3, m4, m5, m6, m7, m8] =>
      let tileScale : ℝ := (2 : ℝ) ^ (-(level : ℤ))
      let modelSpaceX : ℝ := -1 + (2 * (x : ℝ) + 1) * tileScale
      let modelSpaceY : ℝ := -1 + (2 * (y : ℝ) + 1) * tileScale
      let modelSpaceZ : ℝ :=
        match z with
        | some zv => -1 + (2 * (zv : ℝ) + 1) * tileScale
        | none => 0
      let scaleZ : ℝ :=
        match z with
        | some _ => tileScale
        | none => 1
      -- center = Matrix3.multiplyByVector(rootHalfAxes, offset) + rootCenter
      -- (column-major: result.x = m[0]*vx + m[3]*vy + m[6]*vz, ...)
      let cx := m0 * modelSpaceX + m3 * modelSpaceY + m6 * modelSpaceZ + c0
      let cy := m1 * modelSpaceX + m4 * modelSpaceY + m7 * modelSpaceZ + c1
      let cz := m2 * modelSpaceX + m5 * modelSpaceY + m8 * modelSpaceZ + c2
      -- halfAxes = Matrix3.multiplyByScale(rootHalfAxes, scaleFactors):
      -- column 0 and 1 scaled by tileScale, column 2 by scaleZ
      [cx, cy, cz,
       m0 * tileScale, m1 * tileScale, m2 * tileScale,
       m3 * tileScale, m4 * tileScale, m5 * tileScale,
       m6 * scaleZ, m7 * scaleZ, m8 * scaleZ]
    | _ => rootBox

/-- `BoundingVolumeDerivation.deriveBoundingRegion`.  The root region is
`[west, south, east, north, minimumHeight, maximumHeight]`.
`Rectangle.width`/`Rectangle.height` of CesiumJS are inlined:
`width = east - west` (plus `2π` when `east < west`),
`height = north - south`.  A list that is not 6 numbers long is returned
unchanged (the source would produce undefined/NaN entries; the claims
only concern 6-number regions). -/
noncomputable def deriveBoundingRegion (rootRegion : List ℝ) (level x y : ℕ)
    (z : Option ℕ) : List ℝ :=
  if level = 0 then rootRegion
  else
    match rootRegion with
    | [west0, south0, east0, north0, rootMinimumHeight, rootMaximumHeight] =>
      let tileScale : ℝ := (2 : ℝ) ^ (-(level : ℤ))
      let width : ℝ :=
        if east0 < west0 then east0 + 2 * Real.pi - west0 else east0 - west0
      let childWidth := tileScale * width
      let west := negativePiToPi (west0 + (x : ℝ) * childWidth)
      let east := negativePiToPi (west + childWidth)
      let height : ℝ := north0 - south0
      let childHeight := tileScale * height
      let south := negativePiToPi (south0 + (y : ℝ) * childHeight)
      let north := negativePiToPi (south + childHeight)
      match z with
      | some zv =>
        let childThickness :=
          tileScale * (rootMaximumHeight - rootMinimumHeight)
        let minimumHeight := rootMinimumHeight + (zv : ℝ) * childThickness
        let maximumHeight := minimumHeight + childThickness
        [west, south, east, north, minimumHeight, maximumHeight]
      | none =>
        [west, south, east, north, rootMinimumHeight, rootMaximumHeight]
    | _ => rootRegion

/-- `BoundingVolumeDerivation.deriveBoundingVolumeS2`. -/
noncomputable def deriveBoundingVolumeS2 (boundingVolumeS2 : BoundingVolumeS2)
    (level x y : ℕ) (z : Option ℕ) : BoundingVolumeS2 :=
  if level = 0 then boundingVolumeS2
  else
    let baseCellId := S2Cell.getIdFromToken boundingVolumeS2.token
    let face := baseCellId >>> 61
    let position :=
      if face % 2 = 0 then HilbertOrder.encode2D level x y
      else HilbertOrder.encode2D level y x
    let cellId := S2Cell.fromFacePositionLevel face position level
    match z with
    | some zv =>
      let lower := zv % 2 = 0
      let midpointHeight :=
        (boundingVolumeS2.maximumHeight + boundingVolumeS2.minimumHeight) / 2
      { token := S2Cell.getTokenFromId cellId
        minimumHeight :=
          if lower then boundingVolumeS2.minimumHeight else midpointHeight
        maximumHeight :=
          if lower then midpointHeight else boundingVolumeS2.maximumHeight }
    | none =>
      { token := S2Cell.getTokenFromId cellId
        minimumHeight := boundingVolumeS2.minimumHeight
        maximumHeight := boundingVolumeS2.maximumHeight }

/-- `BoundingVolumeDerivation.deriveBoundingVolume`: dispatch on the root
volume's representation — S2 extension first, then region, then box;
bounding spheres cannot be derived and yield `none` (`undefined`). -/
noncomputable def deriveBoundingVolume (rootBoundingVolume : BoundingVolume)
    (level x y : ℕ) (z : Option ℕ) : Option BoundingVolume :=
  match rootBoundingVolume.s2 with
  | some boundingVolumeS2 =>
    some
      { box := none, region := none, sphere := none
        s2 := some (deriveBoundingVolumeS2 boundingVolumeS2 level x y z) }
  | none =>
    match rootBoundingVolume.region with
    | some rootRegion =>
      some
        { box := none
          region := some (deriveBoundingRegion rootRegion level x y z)
          sphere := none, s2 := none }
    | none =>
      match rootBoundingVolume.box with
      | some rootBox =>
        some
          { box := some (deriveBoundingBox rootBox level x y z)
            region := none, sphere := none, s2 := none }
      | none => none

end BoundingVolumeDerivation

/-! ## Data model of binary metadata

JSON-representation values passed to the table builder: scalar rows are
numbers, string rows are strings, array/vector/matrix rows are arrays. -/

/-- A JSON-like value handed to `BinaryPropertyTables` (the source types
these as `any`). -/
inductive JsonValue where
  | num (q : ℚ)
  | str (s : String)
  | arr (vs : List JsonValue)

/-- `EnumValue` (structure/Metadata/EnumValue.ts): a `{name, value}`
pair of a metadata enum. -/
structure EnumValue where
  name : String
  value : ℤ
  deriving DecidableEq

/-- `MetadataEnum` (structure/Metadata/MetadataEnum.ts), restricted to
the fields the embedded functions read. -/
structure MetadataEnum where
  values : List EnumValue
  valueType : Option String
  deriving DecidableEq

/-- `Schema` (structure/Metadata/Schema.ts), restricted to the fields the
embedded functions read: the optional `enums` dictionary. -/
structure Schema where
  enums : Option (String → Option MetadataEnum)

/-- `ClassProperty` (structure/Metadata/ClassProperty.ts), restricted to
the fields the embedded functions read. -/
structure ClassProperty where
  type : String
  componentType : Option String
  enumType : Option String
  offset : Option ℚ
  scale : Option ℚ

namespace BinaryPropertyTables

/-- `BinaryPropertyTables.flatten`: `[...values]`, a shallow copy. -/
def flatten (values : List JsonValue) : List JsonValue :=
  values

/-- `BinaryPropertyTables.flattenFully` applied to a list: concatenates
the recursive flattening of each element; non-array elements are kept
as-is. -/
def flattenFullyL : List JsonValue → List JsonValue
  | [] => []
  | .arr vs :: rest => flattenFullyL vs ++ flattenFullyL rest
  | v :: rest => v :: flattenFullyL rest

/-- JavaScript `ToNumber` on a flattened value, as applied by the numeric
typed-array constructors.  The numeric packing paths are only ever
reached with number elements; for other elements (which JavaScript would
coerce) an unspecified placeholder of `0` is used. -/
def toNum : JsonValue → ℚ
  | .num q => q
  | _ => 0

/-- JavaScript `String(v)`, as applied by `Array.prototype.join` and
`TextEncoder.encode`.  The string packing paths are only ever reached
with string elements. -/
def jsToString : JsonValue → String
  | .str s => s
  | .num q => toString q
  | .arr _ => ""

/-- JavaScript truthiness of a value, as tested by the boolean
bit-packing loop. -/
def jsTruthy : JsonValue → Bool
  | .num q => q != 0
  | .str s => s != ""
  | .arr _ => true

/-- JavaScript `Array.prototype.indexOf` over a list of enum value names
(strict equality: a non-string value never matches), `-1` when absent. -/
def jsIndexOf (names : List String) (v : JsonValue) : ℤ :=
  match v with
  | .str s =>
    match names.indexOf? s with
    | some i => (i : ℤ)
    | none => -1
  | _ => -1

/-- Truncation toward zero, the `ToInteger` rounding of the JavaScript
integer typed-array conversions. -/
def ratTrunc (q : ℚ) : ℤ :=
  if 0 ≤ q then ⌊q⌋ else ⌈q⌉

/-- Wrap an integer to `w` unsigned bits (`Uint8Array`/`Uint16Array`/
`Uint32Array`/`BigUint64Array` storage). -/
def wrapUnsigned (w : ℕ) (n : ℤ) : ℤ :=
  n % (2 ^ w : ℤ)

/-- Wrap an integer to `w` signed bits (`Int8Array`/`Int16Array`/
`Int32Array`/`BigInt64Array` storage). -/
def wrapSigned (w : ℕ) (n : ℤ) : ℤ :=
  let m := n % (2 ^ w : ℤ)
  if m < 2 ^ (w - 1) then m else m - 2 ^ w

/-- `BinaryPropertyTables.createBuffer` (via `createBufferInternal`):
flattens the values fully and packs them into a typed array of the given
component type.  The buffer is modelled by the list of stored element
values: integer kinds truncate and wrap to the storage width, the 64-bit
kinds reject non-integer inputs (`BigInt(v)` throws), and the float
kinds store the value (binary32/binary64 rounding is not modelled).
Errors are modelled by `Except.error` with the thrown message. -/
def createBuffer (values : List JsonValue) (componentType : Option String) :
    Except String (List ℚ) :=
  let flatValues := (flattenFullyL values).map toNum
  if componentType = some "INT8" then
    .ok (flatValues.map fun v => ((wrapSigned 8 (ratTrunc v) : ℤ) : ℚ))
  else if componentType = some "UINT8" then
    .ok (flatValues.map fun v => ((wrapUnsigned 8 (ratTrunc v) : ℤ) : ℚ))
  else if componentType = some "INT16" then
    .ok (flatValues.map fun v => ((wrapSigned 16 (ratTrunc v) : ℤ) : ℚ))
  else if componentType = some "UINT16" then
    .ok (flatValues.map fun v => ((wrapUnsigned 16 (ratTrunc v) : ℤ) : ℚ))
  else if componentType = some "INT32" then
    .ok (flatValues.map fun v => ((wrapSigned 32 (ratTrunc v) : ℤ) : ℚ))
  else if componentType = some "UINT32" then
    .ok (flatValues.map fun v => ((wrapUnsigned 32 (ratTrunc v) : ℤ) : ℚ))
  else if componentType = some "INT64" then
    if flatValues.all fun v => v.den = 1 then
      .ok (flatValues.map fun v => ((wrapSigned 64 v.num : ℤ) : ℚ))
    else .error "Cannot convert a non-integer value to a BigInt"
  else if componentType = some "UINT64" then
    if flatValues.all fun v => v.den = 1 then
      .ok (flatValues.map fun v => ((wrapUnsigned 64 v.num : ℤ) : ℚ))
    else .error "Cannot convert a non-integer value to a BigInt"
  else if componentType = some "FLOAT32" then .ok flatValues
  else if componentType = some "FLOAT64" then .ok flatValues
  else
    match componentType with
    | some other => .error (other ++ " is not a valid component type")
    | none => .error "undefined is not a valid component type"

/-- `BinaryPropertyTables.createStringBuffer` (via
`createStringBufferInternal`): the UTF-8 bytes of the concatenation
(`join("")`) of the fully flattened values. -/
def createStringBuffer (values : List JsonValue) : List ℕ :=
  (String.join ((flattenFullyL values).map jsToString)).toUTF8.toList.map
    UInt8.toNat

/-- One byte of the boolean bit-packing: bit `bitIndex` of the packed
byte holds the truthiness of value `byteIndex * 8 + bitIndex`
(least-significant-bit first). -/
def booleanByte (values : List JsonValue) (byteIndex : ℕ) : ℕ :=
  (List.range 8).foldl
    (fun acc bitIndex =>
      if jsTruthy ((values.getD (byteIndex * 8 + bitIndex) (.num 0))) then
        acc ||| (1 <<< bitIndex)
      else acc)
    0

/-- `BinaryPropertyTables.createBooleanBuffer` (via
`createBooleanBufferInternal`): `ceil(n/8)` bytes, one bit per fully
flattened value, least-significant-bit first (the source's flat loop is
rendered per byte; absent indices beyond the value count keep their
initialized `0` bits, modelled by the falsy default `.num 0`). -/
def createBooleanBuffer (values : List JsonValue) : List ℕ :=
  let flat := flattenFullyL values
  (List.range ((flat.length + 7) / 8)).map (booleanByte flat)

/-- `BinaryPropertyTables.createValuesBuffer`: STRING and BOOLEAN
properties are packed directly; ENUM properties (a defined `enumType`)
first map every fully flattened value name to `valueNames.indexOf(name)`
and pack at the enum's `valueType` (default `UINT16`); all other
properties pack at the property's `componentType`. -/
def createValuesBuffer (classProperty : ClassProperty) (schema : Schema)
    (values : List JsonValue) : Except String (List ℚ) :=
  let type := classProperty.type
  let componentType := classProperty.componentType
  let enumType := classProperty.enumType
  let flattenedValues := flatten values
  if type = "STRING" then
    .ok ((createStringBuffer flattenedValues).map fun b => (b : ℚ))
  else if type = "BOOLEAN" then
    .ok ((createBooleanBuffer flattenedValues).map fun b => (b : ℚ))
  else
    match enumType with
    | some et =>
      let flattenedValues2 := flattenFullyL flattenedValues
      match schema.enums with
      | none => .error "The schema does not define any enums"
      | some metadataEnums =>
        match metadataEnums et with
        | none => .error ("The schema does not define enum " ++ et)
        | some metadataEnum =>
          let valueNames := metadataEnum.values.map EnumValue.name
          let enumComponentType := metadataEnum.valueType.getD "UINT16"
          let mapped := flattenedValues2.map fun v =>
            JsonValue.num ((jsIndexOf valueNames v : ℤ) : ℚ)
          createBuffer mapped (some enumComponentType)
    | none => createBuffer flattenedValues componentType

/-- The offsets accumulation loop shared by
`createStringOffsetBuffer` and `createArrayOffsetBuffer`:
`offsets[i] = lengths[0] + ... + lengths[i-1]` for `i = 0 .. lengths.length`. -/
def cumulativeOffsets : ℕ → List ℕ → List ℕ
  | offset, [] => [offset]
  | offset, n :: ns => offset :: cumulativeOffsets (offset + n) ns

/-- The `.length` read by `createArrayOffsetBuffer` on one row of a
variable-length array property; rows are arrays (for other values the
source would produce `undefined`/NaN offsets, modelled by `0`). -/
def jsArrayLength : JsonValue → ℕ
  | .arr vs => vs.length
  | _ => 0

/-- The UTF-8 byte length `encoder.encode(s).length` read by
`createStringOffsetBuffer` on one flattened string (non-string values
would be coerced through JavaScript `String(v)`). -/
def jsonUtf8Length (v : JsonValue) : ℕ :=
  (jsToString v).utf8ByteSize

/-- The offsets list built by
`BinaryPropertyTables.createStringOffsetBuffer`: cumulative UTF-8 byte
lengths of the fully flattened strings, with a leading `0` and a final
total. -/
def createStringOffsets (values : List JsonValue) : List ℕ :=
  cumulativeOffsets 0 ((flattenFullyL values).map jsonUtf8Length)

/-- `BinaryPropertyTables.createStringOffsetBuffer`: the string offsets
packed at the requested offset type (default `UINT32`). -/
def createStringOffsetBuffer (values : List JsonValue)
    (offsetType : Option String) : Except String (List ℚ) :=
  createBuffer
    ((createStringOffsets values).map fun n : ℕ => JsonValue.num (n : ℚ))
    (some (offsetType.getD "UINT32"))

/-- The offsets list built by
`BinaryPropertyTables.createArrayOffsetBuffer`: cumulative element counts
of the rows, with a leading `0` and a final total. -/
def createArrayOffsets (values : List JsonValue) : List ℕ :=
  cumulativeOffsets 0 (values.map jsArrayLength)

/-- `BinaryPropertyTables.createArrayOffsetBuffer`: the array offsets
packed at the requested offset type (default `UINT32`). -/
def createArrayOffsetBuffer (values : List JsonValue)
    (offsetType : Option String) : Except String (List ℚ) :=
  createBuffer
    ((createArrayOffsets values).map fun n : ℕ => JsonValue.num (n : ℚ))
    (some (offsetType.getD "UINT32"))

end BinaryPropertyTables

/-! ## Row facade (entity model) -/

/-- `PropertyTableProperty` (structure/PropertyTableProperty.ts),
restricted to the fields the embedded functions read: the table-level
`offset`/`scale` overrides. -/
structure PropertyTableProperty where
  offset : Option ℚ
  scale : Option ℚ

/-- A `PropertyModel` (metadata/PropertyModel.ts): a stateless
row-indexed accessor with the single capability
`getPropertyValue(index)`. -/
structure PropertyModel where
  getPropertyValue : ℕ → ℚ

/-- The `PropertyTableModel` lookups used by
`BinaryMetadataEntityModel` (metadata/PropertyTableModel.ts is not under
src/): per-property lookups of the `ClassProperty`, the
`PropertyTableProperty`, and the constructed `PropertyModel`, each
possibly absent. -/
structure PropertyTableModel where
  getClassProperty : String → Option ClassProperty
  getPropertyTableProperty : String → Option PropertyTableProperty
  getPropertyModel : String → Option PropertyModel

/-- Modelled from the spec: `MetadataValues.processValue` is not under
src/ — "numeric de-normalization/rescaling using, in precedence order,
the table-level override then the class-level default then identity",
for a scalar value in offset/scale form. -/
def MetadataValues.processValue (classProperty : ClassProperty)
    (offsetOverride scaleOverride : Option ℚ) (value : ℚ) : ℚ :=
  let scale := (scaleOverride.orElse fun _ => classProperty.scale).getD 1
  let offset := (offsetOverride.orElse fun _ => classProperty.offset).getD 0
  value * scale + offset

/-- `BinaryMetadataEntityModel`: binds a `PropertyTableModel`, one row
index, and a semantic-name to property-id mapping. -/
structure BinaryMetadataEntityModel where
  propertyTableModel : PropertyTableModel
  entityIndex : ℕ
  semanticToPropertyId : String → Option String

namespace BinaryMetadataEntityModel

/-- `BinaryMetadataEntityModel.getPropertyValue`: three lookups, each
failing with a `MetadataError` when absent, then the raw read at the
bound row post-processed by `MetadataValues.processValue`. -/
def getPropertyValue (m : BinaryMetadataEntityModel) (propertyId : String) :
    Except String ℚ :=
  let propertyTableModel := m.propertyTableModel
  match propertyTableModel.getClassProperty propertyId with
  | none => .error ("The class does not define a property " ++ propertyId)
  | some classProperty =>
    match propertyTableModel.getPropertyTableProperty propertyId with
    | none =>
      .error ("The property table does not define a property " ++ propertyId)
    | some propertyTableProperty =>
      match propertyTableModel.getPropertyModel propertyId with
      | none =>
        .error ("The property table does not define a property model for "
          ++ propertyId)
      | some propertyModel =>
        let value := propertyModel.getPropertyValue m.entityIndex
        let offsetOverride := propertyTableProperty.offset
        let scaleOverride := propertyTableProperty.scale
        .ok (MetadataValues.processValue classProperty offsetOverride
          scaleOverride value)

/-- `BinaryMetadataEntityModel.getPropertyValueBySemantic`: `undefined`
(not an error) when the semantic is unmapped, otherwise delegates to
`getPropertyValue`. -/
def getPropertyValueBySemantic (m : BinaryMetadataEntityModel)
    (semantic : String) : Except String (Option ℚ) :=
  match m.semanticToPropertyId semantic with
  | none => .ok none
  | some propertyId => (m.getPropertyValue propertyId).map some

end BinaryMetadataEntityModel

/-! ## Helper lemmas for the binary property table builder -/

namespace BinaryPropertyTables

theorem flattenFullyL_map_str (ss : List String) :
    flattenFullyL (ss.map JsonValue.str) = ss.map JsonValue.str := by
  induction ss with
  | nil => simp [flattenFullyL]
  | cons s rest ih => simp [flattenFullyL, ih]

theorem flattenFullyL_map_num (qs : List ℚ) :
    flattenFullyL (qs.map JsonValue.num) = qs.map JsonValue.num := by
  induction qs with
  | nil => simp [flattenFullyL]
  | cons q rest ih => simp [flattenFullyL, ih]

theorem ratTrunc_intCast (n : ℤ) : ratTrunc (n : ℚ) = n := by
  unfold ratTrunc
  split <;> simp

theorem ratTrunc_natCast (n : ℕ) : ratTrunc (n : ℚ) = (n : ℤ) := by
  rw [show ((n : ℚ)) = ((n : ℤ) : ℚ) by push_cast; rfl]
  exact ratTrunc_intCast _

/-- Evaluation of `createBuffer` on a list of natural numbers at the
`UINT32` width. -/
theorem createBuffer_num_uint32 (ns : List ℕ) :
    createBuffer (ns.map fun n : ℕ => JsonValue.num (n : ℚ)) (some "UINT32") =
      .ok (ns.map fun n : ℕ => ((wrapUnsigned 32 (n : ℤ) : ℤ) : ℚ)) := by
  unfold createBuffer
  rw [show (fun n : ℕ => JsonValue.num (n : ℚ)) =
      (JsonValue.num ∘ fun n : ℕ => (n : ℚ)) from rfl]
  rw [← List.map_map, flattenFullyL_map_num]
  simp [List.map_map, Function.comp_def, toNum, ratTrunc_natCast]

/-- Evaluation of `createBuffer` on mapped integer values at the
`UINT16` width. -/
theorem createBuffer_int_uint16 {α : Type} (l : List α) (g : α → ℤ) :
    createBuffer (l.map fun a => JsonValue.num ((g a : ℤ) : ℚ)) (some "UINT16") =
      .ok (l.map fun a => ((wrapUnsigned 16 (g a) : ℤ) : ℚ)) := by
  unfold createBuffer
  rw [show (fun a : α => JsonValue.num ((g a : ℤ) : ℚ)) =
      (JsonValue.num ∘ fun a : α => ((g a : ℤ) : ℚ)) from rfl]
  rw [← List.map_map, flattenFullyL_map_num]
  simp [List.map_map, Function.comp_def, toNum, ratTrunc_intCast]

/-- Evaluation of the ENUM branch of `createValuesBuffer` on a list of
string value names, for an enum with the default (`UINT16`) value
type. -/
theorem createValuesBuffer_enum_eq (et : String) (me : MetadataEnum)
    (enums : String → Option MetadataEnum) (ct : Option String)
    (o sc : Option ℚ) (names : List String) (h1 : enums et = some me)
    (h2 : me.valueType = none) :
    createValuesBuffer ⟨"ENUM", ct, some et, o, sc⟩ ⟨some enums⟩
      (names.map JsonValue.str) =
      .ok (names.map fun s =>
        ((wrapUnsigned 16
          (jsIndexOf (me.values.map EnumValue.name) (.str s)) : ℤ) : ℚ)) := by
  have hmain := createBuffer_int_uint16 names
    (fun s => jsIndexOf (me.values.map EnumValue.name) (.str s))
  simp only [createValuesBuffer, flatten, h1, h2, flattenFullyL_map_str,
    Option.getD_none, List.map_map]
  rw [if_neg (show ¬("ENUM" : String) = "STRING" from by decide),
    if_neg (show ¬("ENUM" : String) = "BOOLEAN" from by decide)]
  exact hmain

theorem cumulativeOffsets_eq_scanl (off : ℕ) (ns : List ℕ) :
    cumulativeOffsets off ns = ns.scanl (· + ·) off := by
  induction ns generalizing off with
  | nil => rfl
  | cons n rest ih => simp [cumulativeOffsets, List.scanl, ih]

theorem cumulativeOffsets_length (off : ℕ) (ns : List ℕ) :
    (cumulativeOffsets off ns).length = ns.length + 1 := by
  induction ns generalizing off with
  | nil => rfl
  | cons n rest ih => simp [cumulativeOffsets, ih]

theorem cumulativeOffsets_head (off : ℕ) (ns : List ℕ) :
    (cumulativeOffsets off ns).head? = some off := by
  cases ns <;> rfl

theorem cumulativeOffsets_chain (off : ℕ) (ns : List ℕ) :
    List.Chain' (· ≤ ·) (cumulativeOffsets off ns) := by
  induction ns generalizing off with
  | nil => simp [cumulativeOffsets]
  | cons n rest ih =>
    rw [cumulativeOffsets, List.chain'_cons']
    refine ⟨?_, ih _⟩
    intro h hh
    rw [cumulativeOffsets_head] at hh
    simp only [Option.mem_def, Option.some.injEq] at hh
    omega

end BinaryPropertyTables

/-! ## Range lemmas for the modelled CesiumJS angle renormalization -/

theorem jsRem_lt {n : ℝ} (hn : 0 < n) (m : ℝ) :
    -n < jsRem m n ∧ jsRem m n < n := by
  have hne : n ≠ 0 := ne_of_gt hn
  have hm : m = n * (m / n) := by field_simp
  unfold jsRem realTrunc
  by_cases h : 0 ≤ m / n
  · rw [if_pos h]
    have h1 : (⌊m / n⌋ : ℝ) ≤ m / n := Int.floor_le _
    have h2 : m / n < ⌊m / n⌋ + 1 := Int.lt_floor_add_one _
    constructor <;> nlinarith
  · rw [if_neg h]
    have h1 : m / n ≤ (⌈m / n⌉ : ℝ) := Int.le_ceil _
    have h2 : (⌈m / n⌉ : ℝ) < m / n + 1 := Int.ceil_lt_add_one _
    constructor <;> nlinarith

theorem jsRem_nonneg_of_nonneg {n : ℝ} (hn : 0 < n) {m : ℝ} (hm : 0 ≤ m) :
    0 ≤ jsRem m n ∧ jsRem m n < n := by
  have hne : n ≠ 0 := ne_of_gt hn
  have hmeq : m = n * (m / n) := by field_simp
  unfold jsRem realTrunc
  rw [if_pos (div_nonneg hm hn.le)]
  have h1 : (⌊m / n⌋ : ℝ) ≤ m / n := Int.floor_le _
  have h2 : m / n < ⌊m / n⌋ + 1 := Int.lt_floor_add_one _
  constructor <;> nlinarith

theorem cesiumMod_mem {n : ℝ} (hn : 0 < n) (m : ℝ) :
    0 ≤ cesiumMod m n ∧ cesiumMod m n < n := by
  unfold cesiumMod
  have h1 := jsRem_lt hn m
  exact jsRem_nonneg_of_nonneg hn (by linarith [h1.1])

theorem zeroToTwoPi_mem (a : ℝ) :
    0 ≤ zeroToTwoPi a ∧ zeroToTwoPi a ≤ 2 * Real.pi := by
  unfold zeroToTwoPi
  split
  · next h => exact ⟨h.1, h.2⟩
  · next h =>
    have h2 : (0 : ℝ) < 2 * Real.pi := by positivity
    have := cesiumMod_mem h2 a
    exact ⟨this.1, this.2.le⟩

theorem negativePiToPi_mem (a : ℝ) :
    -Real.pi ≤ negativePiToPi a ∧ negativePiToPi a ≤ Real.pi := by
  unfold negativePiToPi
  split
  · next h => exact ⟨h.1, h.2⟩
  · next h =>
    have := zeroToTwoPi_mem (a + Real.pi)
    constructor <;> linarith [this.1, this.2]

/-! ## Claim theorems: bounding volume derivation -/

/-- Claim C1: for every 12-number root box and every coordinate with
`level > 0`, the derived child box has center equal to the root center
plus the root half-axis matrix applied to the model-space offset
`(-1 + (2x+1)·2^-level, -1 + (2y+1)·2^-level, z present ? -1 + (2z+1)·2^-level : 0)`,
and half-axes equal to the root half-axes scaled column-wise by
`(2^-level, 2^-level, z present ? 2^-level : 1)`; in particular the root
box `{center:[0,0,0], halfAxes: identity*10}` at `(level=1,x=0,y=0,z=0)`
derives the child box with center `[-5,-5,-5]` and half-axes `0.5` times
the root's. -/
theorem deriveBoundingBox_matches_spec :
    (∀ (c0 c1 c2 m0 m1 m2 m3 m4 m5 m6 m7 m8 : ℝ) (level x y : ℕ)
      (z : Option ℕ), 0 < level →
      BoundingVolumeDerivation.deriveBoundingBox
        [c0, c1, c2, m0, m1, m2, m3, m4, m5, m6, m7, m8] level x y z =
      (let t : ℝ := (2 : ℝ) ^ (-(level : ℤ))
       let ox : ℝ := -1 + (2 * (x : ℝ) + 1) * t
       let oy : ℝ := -1 + (2 * (y : ℝ) + 1) * t
       let oz : ℝ :=
         match z with
         | some zv => -1 + (2 * (zv : ℝ) + 1) * t
         | none => 0
       let sz : ℝ :=
         match z with
         | some _ => t
         | none => 1
       [c0 + (m0 * ox + m3 * oy + m6 * oz),
        c1 + (m1 * ox + m4 * oy + m7 * oz),
        c2 + (m2 * ox + m5 * oy + m8 * oz),
        m0 * t, m1 * t, m2 * t,
        m3 * t, m4 * t, m5 * t,
        m6 * sz, m7 * sz, m8 * sz])) ∧
    BoundingVolumeDerivation.deriveBoundingBox
      [0, 0, 0, 10, 0, 0, 0, 10, 0, 0, 0, 10] 1 0 0 (some 0) =
      [-5, -5, -5, 5, 0, 0, 0, 5, 0, 0, 0, 5] := by
  constructor
  · intro c0 c1 c2 m0 m1 m2 m3 m4 m5 m6 m7 m8 level x y z hl
    have hl' : ¬ level = 0 := Nat.pos_iff_ne_zero.mp hl
    cases z <;>
      · simp only [BoundingVolumeDerivation.deriveBoundingBox, if_neg hl']
        simp only [List.cons.injEq, and_true]
        and_intros <;> ring
  · simp only [BoundingVolumeDerivation.deriveBoundingBox,
      if_neg (by decide : ¬ (1 : ℕ) = 0)]
    norm_num [zpow_neg]

/-- Witness for C1 at the concrete input
`rootBox = [1..12], level = 2, x = 1, y = 0, z` absent. -/
theorem deriveBoundingBox_matches_spec_witness :
    BoundingVolumeDerivation.deriveBoundingBox
      [1, 2, 3, 4, 5, 6, 7, 8, 9, 10, 11, 12] 2 1 0 none =
      [-21/4, -21/4, -21/4, 1, 5/4, 3/2, 7/4, 2, 9/4, 10, 11, 12] := by
  have h := deriveBoundingBox_matches_spec.1
    1 2 3 4 5 6 7 8 9 10 11 12 2 1 0 none (by decide)
  rw [h]
  norm_num [zpow_neg]

/-- Claim C3 (amended): for every 6-number root region and every
coordinate with `level > 0`, all four longitude/latitude entries of the
derived region lie in `[-π, π]` (at `level = 0` the source returns the
root region unchanged, without renormalizing it). -/
theorem deriveBoundingRegion_range :
    ∀ (west0 south0 east0 north0 minH0 maxH0 : ℝ) (level x y : ℕ)
      (z : Option ℕ), 0 < level →
      ∃ west south east north minimumHeight maximumHeight,
        BoundingVolumeDerivation.deriveBoundingRegion
          [west0, south0, east0, north0, minH0, maxH0] level x y z =
          [west, south, east, north, minimumHeight, maximumHeight] ∧
        (-Real.pi ≤ west ∧ west ≤ Real.pi) ∧
        (-Real.pi ≤ south ∧ south ≤ Real.pi) ∧
        (-Real.pi ≤ east ∧ east ≤ Real.pi) ∧
        (-Real.pi ≤ north ∧ north ≤ Real.pi) := by
  intro west0 south0 east0 north0 minH0 maxH0 level x y z hl
  have hl' : ¬ level = 0 := Nat.pos_iff_ne_zero.mp hl
  cases z <;>
    · simp only [BoundingVolumeDerivation.deriveBoundingRegion, if_neg hl']
      refine ⟨_, _, _, _, _, _, rfl, ?_, ?_, ?_, ?_⟩ <;>
        exact negativePiToPi_mem _

/-- Witness for C3 (amended) at the root region `[0,0,0,0,0,0]` and
coordinate `(level=1, x=0, y=0)`. -/
theorem deriveBoundingRegion_range_witness :
    ∃ west south east north minimumHeight maximumHeight,
      BoundingVolumeDerivation.deriveBoundingRegion
        [0, 0, 0, 0, 0, 0] 1 0 0 none =
        [west, south, east, north, minimumHeight, maximumHeight] ∧
      (-Real.pi ≤ west ∧ west ≤ Real.pi) ∧
      (-Real.pi ≤ south ∧ south ≤ Real.pi) ∧
      (-Real.pi ≤ east ∧ east ≤ Real.pi) ∧
      (-Real.pi ≤ north ∧ north ≤ Real.pi) :=
  deriveBoundingRegion_range 0 0 0 0 0 0 1 0 0 none (by decide)

/-- Counterexample to C3 as stated: at `level = 0` the root region is
returned unchanged, so a root with `west = 4 > π` yields a derived
region whose `west` entry is outside `[-π, π]`. -/
theorem deriveBoundingRegion_range_counterexample :
    Real.pi <
      (BoundingVolumeDerivation.deriveBoundingRegion
        [4, 0, 0, 0, 0, 0] 0 0 0 none).getD 0 0 := by
  have h4 : Real.pi < 4 := by linarith [Real.pi_lt_d2]
  simpa [BoundingVolumeDerivation.deriveBoundingRegion] using h4

/-- Claim C4: deriving at coordinates `(level=0, x=0, y=0)` — with `z`
absent or present (any `z`, in particular `z = 0`) — yields a bounding
volume equal to the root volume, for box-, region-, and S2-form roots. -/
theorem deriveBoundingVolume_identity :
    ∀ (b r : List ℝ) (s : BoundingVolumeS2) (z : Option ℕ),
      BoundingVolumeDerivation.deriveBoundingVolume
        ⟨some b, none, none, none⟩ 0 0 0 z = some ⟨some b, none, none, none⟩ ∧
      BoundingVolumeDerivation.deriveBoundingVolume
        ⟨none, some r, none, none⟩ 0 0 0 z = some ⟨none, some r, none, none⟩ ∧
      BoundingVolumeDerivation.deriveBoundingVolume
        ⟨none, none, none, some s⟩ 0 0 0 z = some ⟨none, none, none, some s⟩ := by
  intro b r s z
  exact ⟨rfl, rfl, rfl⟩

/-- Claim C6: for `level > 0` the derived S2 cell identifier is built
from the root cell's face (top 3 bits of its 64-bit identifier), the
Hilbert-curve position at the given level from `(x, y)` for an even face
and from `(y, x)` for an odd face, and the level; concretely the
positions at `(level=1, x=1, y=0)` and `(level=1, x=0, y=1)` are `3`
and `1`, so even- and odd-face roots differ by exactly the x/y swap. -/
theorem deriveBoundingVolumeS2_spec :
    ∀ (s2v : BoundingVolumeS2) (level x y : ℕ) (z : Option ℕ),
      0 < level →
      ((BoundingVolumeDerivation.deriveBoundingVolumeS2 s2v level x y z).token =
        S2Cell.fromFacePositionLevel (S2Cell.getIdFromToken s2v.token >>> 61)
          (if (S2Cell.getIdFromToken s2v.token >>> 61) % 2 = 0 then
            HilbertOrder.encode2D level x y
          else HilbertOrder.encode2D level y x) level) ∧
      ((S2Cell.getIdFromToken s2v.token >>> 61) % 2 = 1 →
        (BoundingVolumeDerivation.deriveBoundingVolumeS2 s2v level x y z).token =
          S2Cell.fromFacePositionLevel (S2Cell.getIdFromToken s2v.token >>> 61)
            (HilbertOrder.encode2D level y x) level) ∧
      HilbertOrder.encode2D 1 1 0 = 3 ∧
      HilbertOrder.encode2D 1 0 1 = 1 := by
  intro s2v level x y z hl
  have hl' : ¬ level = 0 := Nat.pos_iff_ne_zero.mp hl
  refine ⟨?_, ?_, by decide, by decide⟩
  · cases z <;>
      simp only [BoundingVolumeDerivation.deriveBoundingVolumeS2, if_neg hl',
        S2Cell.getTokenFromId]
  · intro hodd
    cases z <;>
      · simp only [BoundingVolumeDerivation.deriveBoundingVolumeS2, if_neg hl',
          S2Cell.getTokenFromId]
        rw [if_neg (by omega)]

/-- Witness for C6 at an even-face root (`token = 0`, face `0`) and the
coordinate `(level=1, x=1, y=0)`. -/
theorem deriveBoundingVolumeS2_spec_witness :
    ((BoundingVolumeDerivation.deriveBoundingVolumeS2 ⟨0, 0, 1⟩ 1 1 0 none).token =
      S2Cell.fromFacePositionLevel (S2Cell.getIdFromToken (0 : ℕ) >>> 61)
        (if (S2Cell.getIdFromToken (0 : ℕ) >>> 61) % 2 = 0 then
          HilbertOrder.encode2D 1 1 0
        else HilbertOrder.encode2D 1 0 1) 1) ∧
    ((S2Cell.getIdFromToken (0 : ℕ) >>> 61) % 2 = 1 →
      (BoundingVolumeDerivation.deriveBoundingVolumeS2 ⟨0, 0, 1⟩ 1 1 0 none).token =
        S2Cell.fromFacePositionLevel (S2Cell.getIdFromToken (0 : ℕ) >>> 61)
          (HilbertOrder.encode2D 1 0 1) 1) ∧
    HilbertOrder.encode2D 1 1 0 = 3 ∧
    HilbertOrder.encode2D 1 0 1 = 1 :=
  deriveBoundingVolumeS2_spec ⟨0, 0, 1⟩ 1 1 0 none (by decide)

/-- Claim C8: a root bounding volume that carries no box, no region and
no S2 extension (a bounding sphere) derives to the distinguished
"not derivable" outcome `none` (`undefined`), for every coordinate
tuple — not an error and not an approximated volume. -/
theorem deriveBoundingVolume_sphere :
    ∀ (sphere : Option (List ℝ)) (level x y : ℕ) (z : Option ℕ),
      BoundingVolumeDerivation.deriveBoundingVolume
        ⟨none, none, sphere, none⟩ level x y z = none := by
  intro sphere level x y z
  rfl

/-- Claim C9: at `level = 0` the derivation never inspects the `x`, `y`,
`z` coordinates — the result is the same for all of them. -/
theorem deriveBoundingVolume_levelZero :
    ∀ (root : BoundingVolume) (x y : ℕ) (z : Option ℕ) (x' y' : ℕ)
      (z' : Option ℕ),
      BoundingVolumeDerivation.deriveBoundingVolume root 0 x y z =
        BoundingVolumeDerivation.deriveBoundingVolume root 0 x' y' z' := by
  intro root x y z x' y' z'
  obtain ⟨b, r, sp, s⟩ := root
  cases s <;> cases r <;> cases b <;> cases z <;> cases z' <;> rfl

/-- Claim C10: the derivation dispatches in the fixed priority order
S2 extension, then region, then box; the result carries only the shape
selected by this priority. -/
theorem deriveBoundingVolume_dispatch :
    ∀ (root : BoundingVolume) (level x y : ℕ) (z : Option ℕ),
      (∀ s, root.s2 = some s →
        BoundingVolumeDerivation.deriveBoundingVolume root level x y z =
          some ⟨none, none, none,
            some (BoundingVolumeDerivation.deriveBoundingVolumeS2 s level x y z)⟩) ∧
      (root.s2 = none → ∀ r, root.region = some r →
        BoundingVolumeDerivation.deriveBoundingVolume root level x y z =
          some ⟨none,
            some (BoundingVolumeDerivation.deriveBoundingRegion r level x y z),
            none, none⟩) ∧
      (root.s2 = none → root.region = none → ∀ b, root.box = some b →
        BoundingVolumeDerivation.deriveBoundingVolume root level x y z =
          some ⟨some (BoundingVolumeDerivation.deriveBoundingBox b level x y z),
            none, none, none⟩) := by
  intro root level x y z
  obtain ⟨bx, rg, sp, s2f⟩ := root
  refine ⟨?_, ?_, ?_⟩
  · intro s hs
    simp only at hs
    subst hs
    rfl
  · intro hs r hr
    simp only at hs hr
    subst hs; subst hr
    rfl
  · intro hs hr b hb
    simp only at hs hr hb
    subst hs; subst hr; subst hb
    rfl

/-- Witness for C10 at a root carrying an S2 extension, a region and a
box at once: the S2 extension wins. -/
theorem deriveBoundingVolume_dispatch_witness :
    BoundingVolumeDerivation.deriveBoundingVolume
      ⟨some [1], some [2], some [3], some ⟨5, 0, 1⟩⟩ 1 0 0 none =
      some ⟨none, none, none,
        some (BoundingVolumeDerivation.deriveBoundingVolumeS2
          ⟨5, 0, 1⟩ 1 0 0 none)⟩ :=
  (deriveBoundingVolume_dispatch
    ⟨some [1], some [2], some [3], some ⟨5, 0, 1⟩⟩ 1 0 0 none).1 ⟨5, 0, 1⟩ rfl

/-! ## Claim theorems: binary property table codec -/

/-- Counterexample to C2 as stated: encoding the names
`["ExampleA", "ExampleB"]` against an enum that defines only
`{name: "ExampleA", value: 12}` raises no `UnknownEnumValue` error —
it succeeds, stores `0` for `"ExampleA"` (its index, not its
enum-defined code `12`) and silently stores `indexOf`'s `-1` for the
unknown `"ExampleB"`, wrapped to the placeholder `65535` at the default
`UINT16` storage width. -/
theorem createValuesBuffer_enum_counterexample :
    BinaryPropertyTables.createValuesBuffer
      ⟨"ENUM", none, some "testMetadataEnum", none, none⟩
      ⟨some fun s => if s = "testMetadataEnum" then
        some ⟨[⟨"ExampleA", 12⟩], none⟩ else none⟩
      [.str "ExampleA", .str "ExampleB"] = .ok [0, 65535] := by
  rw [show ([.str "ExampleA", .str "ExampleB"] : List JsonValue) =
    (["ExampleA", "ExampleB"].map JsonValue.str) from rfl]
  rw [BinaryPropertyTables.createValuesBuffer_enum_eq "testMetadataEnum"
    ⟨[⟨"ExampleA", 12⟩], none⟩ _ none none none ["ExampleA", "ExampleB"]
    (by simp) rfl]
  simp [BinaryPropertyTables.jsIndexOf, BinaryPropertyTables.wrapUnsigned,
    List.indexOf?, List.findIdx?]

/-- Claim C2 (amended): on the encoding path each supplied ENUM value
name is mapped to its index in the referenced enum's `values` list (not
to the enum-defined integer code), and an unknown name is silently
mapped to `indexOf`'s `-1` — wrapped at the unsigned storage width, e.g.
`65535` at the default `UINT16` — rather than failing with an
`UnknownEnumValue` error; the operation fails only when the schema
defines no enums or does not define the referenced enum. -/
theorem createValuesBuffer_enum_spec :
    (∀ (et : String) (me : MetadataEnum)
      (enums : String → Option MetadataEnum) (ct : Option String)
      (o sc : Option ℚ) (names : List String),
      enums et = some me → me.valueType = none →
      BinaryPropertyTables.createValuesBuffer ⟨"ENUM", ct, some et, o, sc⟩
        ⟨some enums⟩ (names.map JsonValue.str) =
        .ok (names.map fun s =>
          ((BinaryPropertyTables.wrapUnsigned 16
            (BinaryPropertyTables.jsIndexOf
              (me.values.map EnumValue.name) (.str s)) : ℤ) : ℚ))) ∧
    (∀ (et : String) (ct : Option String) (o sc : Option ℚ)
      (values : List JsonValue),
      BinaryPropertyTables.createValuesBuffer ⟨"ENUM", ct, some et, o, sc⟩
        ⟨none⟩ values = .error "The schema does not define any enums") ∧
    (∀ (et : String) (ct : Option String) (o sc : Option ℚ)
      (enums : String → Option MetadataEnum) (values : List JsonValue),
      enums et = none →
      BinaryPropertyTables.createValuesBuffer ⟨"ENUM", ct, some et, o, sc⟩
        ⟨some enums⟩ values =
        .error ("The schema does not define enum " ++ et)) := by
  refine ⟨?_, ?_, ?_⟩
  · intro et me enums ct o sc names h1 h2
    exact BinaryPropertyTables.createValuesBuffer_enum_eq
      et me enums ct o sc names h1 h2
  · intro et ct o sc values
    simp only [BinaryPropertyTables.createValuesBuffer,
      BinaryPropertyTables.flatten]
    rw [if_neg (show ¬("ENUM" : String) = "STRING" from by decide),
      if_neg (show ¬("ENUM" : String) = "BOOLEAN" from by decide)]
  · intro et ct o sc enums values h
    simp only [BinaryPropertyTables.createValuesBuffer,
      BinaryPropertyTables.flatten, h]
    rw [if_neg (show ¬("ENUM" : String) = "STRING" from by decide),
      if_neg (show ¬("ENUM" : String) = "BOOLEAN" from by decide)]

/-- Witness for C2 (amended) at an enum with two named values and the
supplied names in reverse order: both are encoded by their index. -/
theorem createValuesBuffer_enum_spec_witness :
    BinaryPropertyTables.createValuesBuffer
      ⟨"ENUM", none, some "testMetadataEnum", none, none⟩
      ⟨some fun s => if s = "testMetadataEnum" then
        some ⟨[⟨"ExampleA", 7⟩, ⟨"ExampleB", 9⟩], none⟩ else none⟩
      (["ExampleB", "ExampleA"].map JsonValue.str) =
      .ok (["ExampleB", "ExampleA"].map fun s =>
        ((BinaryPropertyTables.wrapUnsigned 16
          (BinaryPropertyTables.jsIndexOf
            (([⟨"ExampleA", 7⟩, ⟨"ExampleB", 9⟩] :
              List EnumValue).map EnumValue.name) (.str s)) : ℤ) : ℚ)) :=
  createValuesBuffer_enum_spec.1 "testMetadataEnum"
    ⟨[⟨"ExampleA", 7⟩, ⟨"ExampleB", 9⟩], none⟩ _ none none none
    ["ExampleB", "ExampleA"] (by simp) rfl

/-- Claim C5: every array-offsets list built by the table builder has
`rowCount + 1` entries, and every string-offsets list has
`totalStringCount + 1` entries; both start at `0`, are non-decreasing,
and consecutive entries are the cumulative element counts (respectively
cumulative UTF-8 byte lengths) of the input values; the offset buffers
pack exactly these entries at the default `UINT32` width. -/
theorem offsetBuffers_spec :
    (∀ values : List JsonValue,
      (BinaryPropertyTables.createArrayOffsets values).length =
        values.length + 1 ∧
      (BinaryPropertyTables.createArrayOffsets values).head? = some 0 ∧
      List.Chain' (· ≤ ·) (BinaryPropertyTables.createArrayOffsets values) ∧
      BinaryPropertyTables.createArrayOffsets values =
        (values.map BinaryPropertyTables.jsArrayLength).scanl (· + ·) 0) ∧
    (∀ values : List JsonValue,
      (BinaryPropertyTables.createStringOffsets values).length =
        (BinaryPropertyTables.flattenFullyL values).length + 1 ∧
      (BinaryPropertyTables.createStringOffsets values).head? = some 0 ∧
      List.Chain' (· ≤ ·) (BinaryPropertyTables.createStringOffsets values) ∧
      BinaryPropertyTables.createStringOffsets values =
        ((BinaryPropertyTables.flattenFullyL values).map
          BinaryPropertyTables.jsonUtf8Length).scanl (· + ·) 0) ∧
    (∀ ss : List String,
      BinaryPropertyTables.createStringOffsets (ss.map JsonValue.str) =
        (ss.map String.utf8ByteSize).scanl (· + ·) 0) ∧
    (∀ values : List JsonValue,
      BinaryPropertyTables.createArrayOffsetBuffer values none =
        .ok ((BinaryPropertyTables.createArrayOffsets values).map
          fun n : ℕ =>
            ((BinaryPropertyTables.wrapUnsigned 32 (n : ℤ) : ℤ) : ℚ))) ∧
    (∀ values : List JsonValue,
      BinaryPropertyTables.createStringOffsetBuffer values none =
        .ok ((BinaryPropertyTables.createStringOffsets values).map
          fun n : ℕ =>
            ((BinaryPropertyTables.wrapUnsigned 32 (n : ℤ) : ℤ) : ℚ))) := by
  refine ⟨?_, ?_, ?_, ?_, ?_⟩
  · intro values
    refine ⟨?_, ?_, ?_, ?_⟩
    · simp [BinaryPropertyTables.createArrayOffsets,
        BinaryPropertyTables.cumulativeOffsets_length]
    · exact BinaryPropertyTables.cumulativeOffsets_head _ _
    · exact BinaryPropertyTables.cumulativeOffsets_chain _ _
    · exact BinaryPropertyTables.cumulativeOffsets_eq_scanl _ _
  · intro values
    refine ⟨?_, ?_, ?_, ?_⟩
    · simp [BinaryPropertyTables.createStringOffsets,
        BinaryPropertyTables.cumulativeOffsets_length]
    · exact BinaryPropertyTables.cumulativeOffsets_head _ _
    · exact BinaryPropertyTables.cumulativeOffsets_chain _ _
    · exact BinaryPropertyTables.cumulativeOffsets_eq_scanl _ _
  · intro ss
    simp [BinaryPropertyTables.createStringOffsets,
      BinaryPropertyTables.flattenFullyL_map_str, List.map_map,
      BinaryPropertyTables.cumulativeOffsets_eq_scanl, Function.comp_def,
      BinaryPropertyTables.jsonUtf8Length, BinaryPropertyTables.jsToString]
  · intro values
    simp only [BinaryPropertyTables.createArrayOffsetBuffer, Option.getD_none]
    exact BinaryPropertyTables.createBuffer_num_uint32 _
  · intro values
    simp only [BinaryPropertyTables.createStringOffsetBuffer, Option.getD_none]
    exact BinaryPropertyTables.createBuffer_num_uint32 _

/-- Claim C7: the row facade's `getPropertyValue` fails exactly when the
class does not define the property, the property table does not define
it, or no property model was constructed for it; otherwise it returns
the post-processed value read from the bound property model at the
bound row index.  `getPropertyValueBySemantic` returns an absent value
(not an error) when the semantic is unmapped, and otherwise equals the
lookup by the mapped property id. -/
theorem binaryMetadataEntityModel_spec :
    ∀ (m : BinaryMetadataEntityModel) (propertyId semantic : String),
      ((∃ e, m.getPropertyValue propertyId = .error e) ↔
        (m.propertyTableModel.getClassProperty propertyId = none ∨
         m.propertyTableModel.getPropertyTableProperty propertyId = none ∨
         m.propertyTableModel.getPropertyModel propertyId = none)) ∧
      (∀ cp ptp pm,
        m.propertyTableModel.getClassProperty propertyId = some cp →
        m.propertyTableModel.getPropertyTableProperty propertyId = some ptp →
        m.propertyTableModel.getPropertyModel propertyId = some pm →
        m.getPropertyValue propertyId =
          .ok (MetadataValues.processValue cp ptp.offset ptp.scale
            (pm.getPropertyValue m.entityIndex))) ∧
      (m.semanticToPropertyId semantic = none →
        m.getPropertyValueBySemantic semantic = .ok none) ∧
      (∀ pid, m.semanticToPropertyId semantic = some pid →
        m.getPropertyValueBySemantic semantic =
          (m.getPropertyValue pid).map some) := by
  intro m propertyId semantic
  refine ⟨?_, ?_, ?_, ?_⟩
  · rcases h1 : m.propertyTableModel.getClassProperty propertyId with _ | cp <;>
      rcases h2 : m.propertyTableModel.getPropertyTableProperty propertyId with
        _ | ptp <;>
      rcases h3 : m.propertyTableModel.getPropertyModel propertyId with
        _ | pm <;>
      simp [BinaryMetadataEntityModel.getPropertyValue, h1, h2, h3]
  · intro cp ptp pm h1 h2 h3
    simp [BinaryMetadataEntityModel.getPropertyValue, h1, h2, h3]
  · intro h
    simp [BinaryMetadataEntityModel.getPropertyValueBySemantic, h]
  · intro pid h
    simp [BinaryMetadataEntityModel.getPropertyValueBySemantic, h]

/-- Witness for C7: a model that defines property `"p"` with
class-level offset `3`, table-level scale `2`, bound row `5`, and a
row-identity property model evaluates `"p"` to `5 * 2 + 3 = 13`. -/
theorem binaryMetadataEntityModel_spec_witness :
    BinaryMetadataEntityModel.getPropertyValue
      ⟨⟨fun _ => some ⟨"SCALAR", some "FLOAT64", none, some 3, none⟩,
        fun _ => some ⟨none, some 2⟩,
        fun _ => some ⟨fun i => (i : ℚ)⟩⟩, 5,
        fun s => if s = "SEM" then some "p" else none⟩ "p" = .ok 13 := by
  have h := (binaryMetadataEntityModel_spec
    ⟨⟨fun _ => some ⟨"SCALAR", some "FLOAT64", none, some 3, none⟩,
      fun _ => some ⟨none, some 2⟩,
      fun _ => some ⟨fun i => (i : ℚ)⟩⟩, 5,
      fun s => if s = "SEM" then some "p" else none⟩ "p" "SEM").2.1
    ⟨"SCALAR", some "FLOAT64", none, some 3, none⟩ ⟨none, some 2⟩
    ⟨fun i => (i : ℚ)⟩ rfl rfl rfl
  rw [h]
  norm_num [MetadataValues.processValue]

end ThreeDTilesTools
